import Mathlib

/-
Verification of the template-parsing and image-compositing module of the
Qt-Py-Photobooth repository (PhotoboothTemplate.py).

The Python module is shallowly embedded:
  * Python exceptions become the `PyExc` error type and fallible code
    returns `Except PyExc α`.
  * Python `int(str)` / `int(str, 16)` become `pyInt` / `pyIntHex`
    (modelled on the builtin: optional sign followed by digits; the
    builtin additionally tolerates surrounding whitespace and
    underscores, which no template field uses and which is not modelled).
  * The lxml document is modelled as a `TemplateDoc` record of the
    attributes and elements the parser reads; the outcomes of the three
    external effects in `TemplateReader.__init__` (loading template.xml,
    loading the XSD, and running schema validation) are inputs of the
    model, since the schema file is not part of the analysed sources.
  * PIL images are modelled by their construction trace: `Img` terms for
    the image expressions the code builds, and a `PILCanvas` carrying the
    ordered list of `paste` operations applied to the canvas, which is
    exactly the information the layering claims are about.  Pixel-level
    resampling (ANTIALIAS / BILINEAR) is floating point and is not
    modelled; the geometry of `Image.thumbnail` is modelled by
    `thumbnailSize`.
-/

/-- Python exception kinds that can arise in the embedded module. -/
inductive PyExc where
  | templateError
  | osError
  | xmlSyntaxError
  | valueError
  | typeError
  | indexError
deriving DecidableEq, Repr

/-- Value of a decimal digit character, `none` for any other character. -/
def digitVal (c : Char) : Option Nat :=
  if '0' ≤ c ∧ c ≤ '9' then some (c.toNat - 48) else none

/-- Value of a hexadecimal digit character, `none` for any other character. -/
def hexDigitVal (c : Char) : Option Nat :=
  if '0' ≤ c ∧ c ≤ '9' then some (c.toNat - 48)
  else if 'a' ≤ c ∧ c ≤ 'f' then some (c.toNat - 87)
  else if 'A' ≤ c ∧ c ≤ 'F' then some (c.toNat - 55)
  else none

/-- Accumulate a digit string left to right in the given base. -/
def digitsAux (dv : Char → Option Nat) (base : Nat) : Nat → List Char → Option Nat
  | acc, [] => some acc
  | acc, c :: cs =>
    match dv c with
    | some d => digitsAux dv base (base * acc + d) cs
    | none => none

/-- Parse a non-empty digit string in the given base. -/
def digitsNat (dv : Char → Option Nat) (base : Nat) : List Char → Option Nat
  | [] => none
  | cs => digitsAux dv base 0 cs

/-- Optional sign followed by a non-empty digit string. -/
def signedDigits (dv : Char → Option Nat) (base : Nat) : List Char → Option Int
  | [] => none
  | c :: cs =>
    if c = '+' then (digitsNat dv base cs).map (fun n => (n : Int))
    else if c = '-' then (digitsNat dv base cs).map (fun n => -(n : Int))
    else (digitsNat dv base (c :: cs)).map (fun n => (n : Int))

/-- Python `int(s)`: parse `s` as a decimal integer, `ValueError` on failure. -/
def pyInt (s : String) : Except PyExc Int :=
  match signedDigits digitVal 10 s.data with
  | some n => Except.ok n
  | none => Except.error PyExc.valueError

/-- Python `int(s, 16)`: parse `s` as a hexadecimal integer, `ValueError` on failure. -/
def pyIntHex (s : String) : Except PyExc Int :=
  match signedDigits hexDigitVal 16 s.data with
  | some n => Except.ok n
  | none => Except.error PyExc.valueError

/-- Python `s.lstrip('#')`: drop every leading `'#'` character. -/
def pyLstripHash (s : String) : String :=
  ⟨s.data.dropWhile (fun c => c = '#')⟩

/-- Python `s[a:b]` for `0 ≤ a ≤ b`: the characters from index `a` up to
(excluding) index `b`, clipped at the end of the string. -/
def pySlice (s : String) (a b : Nat) : String :=
  ⟨(s.data.drop a).take (b - a)⟩

/-- Python `range(start, stop, step)` as a list; `step = 0` raises `ValueError`. -/
def pyRange (start stop step : Nat) : Except PyExc (List Nat) :=
  if step = 0 then Except.error PyExc.valueError
  else Except.ok ((List.range ((stop - start + step - 1) / step)).map
    (fun k => start + k * step))

/-- Python `l[i]`: list indexing, `IndexError` when out of range. -/
def pyGetElem {α : Type} (l : List α) (i : Nat) : Except PyExc α :=
  match l[i]? with
  | some a => Except.ok a
  | none => Except.error PyExc.indexError

/-- Model of `ImageProcessor.hex_to_rgb`:
```
value = value.lstrip('#')
lv = len(value)
return tuple(int(value[i:i + lv // 3], 16) for i in range(0, lv, lv // 3))
```
The result tuple is modelled as a list of integers (its arity is decided
at run time by the `range`). -/
def hex_to_rgb (value : String) : Except PyExc (List Int) := do
  let value := pyLstripHash value
  let lv := value.length
  let idxs ← pyRange 0 lv (lv / 3)
  idxs.mapM (fun i => pyIntHex (pySlice value i (i + lv / 3)))

/-- One entry of `TemplateReader.photoList`:
`{'x': x, 'y': y, 'width': width, 'height': height, 'rotation': rot}`. -/
structure PlacementSpec where
  x : Int
  y : Int
  width : Int
  height : Int
  rotation : Int
deriving DecidableEq, Repr, Inhabited

/-- The fields of a `TemplateReader` after a successful construction. -/
structure TemplateData where
  templateName : Option String
  description : Option String
  author : Option String
  previewImageFilename : Option String
  backgroundColor : Option String
  height : Int
  width : Int
  backgroundPhoto : Option String
  foregroundPhoto : Option String
  photoList : List PlacementSpec
deriving DecidableEq, Repr

/-- One child of the `photos` element: the raw attribute strings the
parser reads (`rotation` may be absent). -/
structure PhotoElem where
  height : String
  width : String
  x : String
  y : String
  rotation : Option String
deriving DecidableEq, Repr

/-- The `canvas` element: raw attribute strings and optional children. -/
structure CanvasElem where
  backgroundColor : Option String
  height : String
  width : String
  backgroundPhoto : Option String
  foregroundPhoto : Option String
  photos : List PhotoElem
deriving DecidableEq, Repr

/-- The parts of a schema-valid template.xml document that
`TemplateReader.__parseFile` reads. -/
structure TemplateDoc where
  name : Option String
  description : Option String
  author : Option String
  previewImage : Option String
  canvas : CanvasElem
deriving DecidableEq, Repr

/-- Outcome of `etree.parse(self.TemplateFilename)`: the file may be
missing/unreadable (`OSError`), syntactically invalid (`XMLSyntaxError`)
or parse into a document. -/
inductive XmlLoad where
  | ioError
  | syntaxError
  | ok (doc : TemplateDoc)
deriving DecidableEq, Repr

/-- The environment of one `TemplateReader` construction.  `schemaLoad`
is whether `etree.parse(TemplateXSD)` succeeds and `schemaValid` the
result of `xmlSchema.validate`; both are inputs of the model because the
XSD file itself is outside the analysed sources. -/
structure TemplateInput where
  dirname : String
  filename : String
  load : XmlLoad
  schemaLoad : Bool
  schemaValid : Bool
deriving DecidableEq, Repr

/-- Model of the `TemplateReader.__parsePhotoList` body for one `photoSpec` child:
`int()` on the four geometry attributes and on `rotation` when present
(default 0). -/
def parsePhotoSpec (elem : PhotoElem) : Except PyExc PlacementSpec := do
  let height ← pyInt elem.height
  let width ← pyInt elem.width
  let x ← pyInt elem.x
  let y ← pyInt elem.y
  let rot ← match elem.rotation with
    | none => pure 0
    | some r => pyInt r
  pure { x := x, y := y, width := width, height := height, rotation := rot }

/-- Model of `TemplateReader.__parseFile` / `__parseCanvas` / `__parsePhotoList`:
stores the scalar fields, keeps the `backgroundColor` attribute as the
raw string, parses the geometry attributes with `int()`, resolves the
photo paths against the template directory and builds the placement
list in document order. -/
def parseFile (dirname : String) (doc : TemplateDoc) : Except PyExc TemplateData := do
  let height ← pyInt doc.canvas.height
  let width ← pyInt doc.canvas.width
  let photoList ← doc.canvas.photos.mapM parsePhotoSpec
  pure { templateName := doc.name
         description := doc.description
         author := doc.author
         previewImageFilename := doc.previewImage
         backgroundColor := doc.canvas.backgroundColor
         height := height
         width := width
         backgroundPhoto := doc.canvas.backgroundPhoto.map (fun src => dirname ++ "/" ++ src)
         foregroundPhoto := doc.canvas.foregroundPhoto.map (fun src => dirname ++ "/" ++ src)
         photoList := photoList }

/-- Model of `TemplateReader.__init__`: load template.xml, validate it against the
XSD, then parse it.  The `try` block catches exactly `OSError` and
`etree.XMLSyntaxError` and re-raises them as `TemplateError`; a
`TemplateError` raised for a failed validation propagates unchanged, and
any other exception of the parse step (for instance `ValueError` from
`int()`) propagates unchanged as well. -/
def TemplateReader.init (inp : TemplateInput) : Except PyExc TemplateData :=
  match inp.load with
  | XmlLoad.ioError => Except.error PyExc.templateError
  | XmlLoad.syntaxError => Except.error PyExc.templateError
  | XmlLoad.ok doc =>
    if inp.schemaLoad = false then Except.error PyExc.templateError
    else if inp.schemaValid = false then Except.error PyExc.templateError
    else parseFile inp.dirname doc

/-- Model of `TemplateReader.getMaxImageSize`:
```
maxSize = (0,0)
for spec in self.photoList:
    if(spec['width'] > maxSize[0]):
        maxSize = (spec['width'], spec['height'])
return maxSize
``` -/
def getMaxImageSize (t : TemplateData) : Int × Int :=
  t.photoList.foldl
    (fun maxSize spec =>
      if spec.width > maxSize.1 then (spec.width, spec.height) else maxSize)
    (0, 0)

/-- Resampling filter constants passed to PIL (`Image.ANTIALIAS`,
`Image.BILINEAR`). -/
inductive Resample where
  | antialias
  | bilinear
deriving DecidableEq, Repr

/-- A source image handed to `processImages` (an element of
`imageList`): identified by an id and its pixel dimensions. -/
structure SrcImage where
  id : Nat
  width : Nat
  height : Nat
deriving DecidableEq, Repr, Inhabited

/-- The image expressions the compositor builds.  `file p` is
`Image.open(p)` (file loading is modelled as always yielding the image
value; I/O failure of PIL is outside the embedding), `convert` is
`.convert(mode)`, `thumb` is the in-place
`.thumbnail((w, h), resample)`, and `rot` is
`.rotate(angle, resample, expand)` — PIL's `rotate` turns the image
counter-clockwise by `angle` degrees and, when `expand` is set, grows
the output to the bounding box of the rotated content. -/
inductive Img where
  | src (s : SrcImage)
  | file (path : String)
  | convert (i : Img) (mode : String)
  | thumb (i : Img) (w h : Int) (resample : Resample)
  | rot (i : Img) (angle : Int) (resample : Resample) (expand : Bool)
deriving DecidableEq, Repr

/-- Geometry of `Image.thumbnail (w, h)` (PIL contract: never enlarge;
otherwise scale both dimensions by the common ratio
`min(w / W, h / H)`, rounding down). -/
def thumbnailSize (cur bound : Nat × Nat) : Nat × Nat :=
  if cur.1 ≤ bound.1 ∧ cur.2 ≤ bound.2 then cur
  else if bound.1 * cur.2 ≤ bound.2 * cur.1 then (bound.1, cur.2 * bound.1 / cur.1)
  else (cur.1 * bound.2 / cur.2, bound.2)

/-- Pixel dimensions of an image expression, when the model knows them
(`file` images and rotated images have unmodelled dimensions). -/
def Img.size : Img → Option (Nat × Nat)
  | Img.src s => some (s.width, s.height)
  | Img.file _ => none
  | Img.convert i _ => i.size
  | Img.thumb i w h _ => i.size.map (fun c => thumbnailSize c (w.toNat, h.toNat))
  | Img.rot _ _ _ _ => none

/-- One `Image.paste(img, pos, mask)` call recorded on the canvas;
`mask = none` is the two-argument opaque paste. -/
structure PasteOp where
  img : Img
  pos : Int × Int
  mask : Option Img
deriving DecidableEq, Repr

/-- The canvas built by `processImages`: its `Image.new` arguments and
the ordered list of pastes applied to it. -/
structure PILCanvas where
  mode : String
  size : Int × Int
  color : List Int
  ops : List PasteOp
deriving DecidableEq, Repr

/-- Model of `mImg.paste(img, pos, mask)`: record the paste on the canvas. -/
def PILCanvas.paste (m : PILCanvas) (img : Img) (pos : Int × Int)
    (mask : Option Img) : PILCanvas :=
  { m with ops := m.ops ++ [{ img := img, pos := pos, mask := mask }] }

/-- The per-placement loop of `ImageProcessor.processImages`:
```
for i in range(0, len(self.template.photoList)):
    photoSpec = self.template.photoList[i]
    takenImg = imageList[i].convert("RGBA")
    takenImg.thumbnail((photoSpec['width'], photoSpec['height']), Image.ANTIALIAS)
    if(photoSpec['rotation'] != 0):
        tmp = takenImg.rotate(photoSpec['rotation'], Image.BILINEAR, 1)
        takenImg = tmp
    mImg.paste(takenImg, (photoSpec['x'], photoSpec['y']), takenImg)
```
The indexed loop is rendered as simultaneous structural recursion on the
placement list and the image list: each step consumes the placement at
index `i` together with `imageList[i]`, and when the image list runs out
first the indexing `imageList[i]` raises `IndexError` (excess images are
never touched). -/
def placeLoop : List PlacementSpec → List SrcImage → PILCanvas → Except PyExc PILCanvas
  | [], _, m => Except.ok m
  | _ :: _, [], _ => Except.error PyExc.indexError
  | photoSpec :: specs, img :: imgs, m =>
    let takenImg := Img.convert (Img.src img) "RGBA"
    let takenImg := Img.thumb takenImg photoSpec.width photoSpec.height Resample.antialias
    let takenImg :=
      if photoSpec.rotation ≠ 0 then
        Img.rot takenImg photoSpec.rotation Resample.bilinear true
      else takenImg
    placeLoop specs imgs (m.paste takenImg (photoSpec.x, photoSpec.y) (some takenImg))

/-- Model of `ImageProcessor.processImages`: create the canvas (parsing the
background color with `hex_to_rgb` when one is set, else the zero color
`(0,0,0,0)`), paste the background image at the origin without a mask,
run the per-placement loop, then paste the foreground overlay at the
origin with its own alpha as the mask. -/
def processImages (t : TemplateData) (imageList : List SrcImage) :
    Except PyExc PILCanvas := do
  let canvasSize : Int × Int := (t.width, t.height)
  let canvasColor ←
    match t.backgroundColor with
    | some c => hex_to_rgb c
    | none => pure [0, 0, 0, 0]
  let mImg : PILCanvas := { mode := "RGB", size := canvasSize, color := canvasColor, ops := [] }
  let mImg :=
    match t.backgroundPhoto with
    | some p => mImg.paste (Img.file p) (0, 0) none
    | none => mImg
  let mImg ← placeLoop t.photoList imageList mImg
  let mImg :=
    match t.foregroundPhoto with
    | some p => mImg.paste (Img.file p) (0, 0) (some (Img.file p))
    | none => mImg
  pure mImg

/-- The loop body of `getMaxImageSize` as a named function (definitionally
the lambda folded in `getMaxImageSize`). -/
def maxStep (maxSize : Int × Int) (spec : PlacementSpec) : Int × Int :=
  if spec.width > maxSize.1 then (spec.width, spec.height) else maxSize

/-- A concrete template whose placements have widths 100, 300, 200 and
heights 50, 150, 100. -/
def tC1 : TemplateData :=
  { templateName := some "t", description := none, author := none,
    previewImageFilename := none, backgroundColor := none,
    height := 600, width := 400, backgroundPhoto := none, foregroundPhoto := none,
    photoList := [{ x := 0, y := 0, width := 100, height := 50, rotation := 0 },
                  { x := 1, y := 1, width := 300, height := 150, rotation := 0 },
                  { x := 2, y := 2, width := 200, height := 100, rotation := 0 }] }

/-- A schema-accepted document whose canvas `height` attribute is not an
integer. -/
def docC2 : TemplateDoc :=
  { name := some "bad", description := none, author := none, previewImage := none,
    canvas := { backgroundColor := none, height := "abc", width := "600",
                backgroundPhoto := none, foregroundPhoto := none, photos := [] } }

/-- A construction environment in which template.xml loads and validates
but carries the non-integer `height` of `docC2`. -/
def inpC2 : TemplateInput :=
  { dirname := "Templates/bad", filename := "template.xml", load := XmlLoad.ok docC2,
    schemaLoad := true, schemaValid := true }

/-- Environment where template.xml is missing or unreadable. -/
def inpC2io : TemplateInput :=
  { dirname := "d", filename := "template.xml", load := XmlLoad.ioError,
    schemaLoad := true, schemaValid := true }

/-- Environment where template.xml is not well-formed XML. -/
def inpC2syn : TemplateInput :=
  { dirname := "d", filename := "template.xml", load := XmlLoad.syntaxError,
    schemaLoad := true, schemaValid := true }

/-- Environment where the schema file cannot be read. -/
def inpC2noschema : TemplateInput :=
  { dirname := "d", filename := "template.xml", load := XmlLoad.ok docC2,
    schemaLoad := false, schemaValid := true }

/-- Environment where schema validation fails. -/
def inpC2inval : TemplateInput :=
  { dirname := "d", filename := "template.xml", load := XmlLoad.ok docC2,
    schemaLoad := true, schemaValid := false }

/-- The image pasted for one placement: the source image converted to
RGBA, thumbnailed into the placement bounds with ANTIALIAS, and — when
the rotation is non-zero — rotated counter-clockwise with BILINEAR and
an expanded bounding box. -/
def mkPlacedImg (photoSpec : PlacementSpec) (img : SrcImage) : Img :=
  if photoSpec.rotation ≠ 0 then
    Img.rot (Img.thumb (Img.convert (Img.src img) "RGBA")
      photoSpec.width photoSpec.height Resample.antialias)
      photoSpec.rotation Resample.bilinear true
  else
    Img.thumb (Img.convert (Img.src img) "RGBA")
      photoSpec.width photoSpec.height Resample.antialias

/-- The paste recorded for one placement: the placed image at the
placement's `(x, y)` with the image itself as the mask. -/
def mkPlacedOp (photoSpec : PlacementSpec) (img : SrcImage) : PasteOp :=
  { img := mkPlacedImg photoSpec img, pos := (photoSpec.x, photoSpec.y),
    mask := some (mkPlacedImg photoSpec img) }

/-- The pastes of the placement loop, pairing placements and images by
index in document order. -/
def placedList (specs : List PlacementSpec) (imgs : List SrcImage) : List PasteOp :=
  (specs.zip imgs).map (fun pr => mkPlacedOp pr.1 pr.2)

/-- The background paste (at most one op, maskless at the origin). -/
def bgOps (t : TemplateData) : List PasteOp :=
  match t.backgroundPhoto with
  | some p => [{ img := Img.file p, pos := (0, 0), mask := none }]
  | none => []

/-- The foreground paste (at most one op, self-masked at the origin). -/
def fgOps (t : TemplateData) : List PasteOp :=
  match t.foregroundPhoto with
  | some p => [{ img := Img.file p, pos := (0, 0), mask := some (Img.file p) }]
  | none => []

/-- The canvas color computation of `processImages`. -/
def colorResult (t : TemplateData) : Except PyExc (List Int) :=
  match t.backgroundColor with
  | some c => hex_to_rgb c
  | none => Except.ok [0, 0, 0, 0]

/-- Closed form of the canvas produced by a successful `processImages`. -/
def canvasForm (t : TemplateData) (imgs : List SrcImage) (col : List Int) : PILCanvas :=
  { mode := "RGB", size := (t.width, t.height), color := col,
    ops := bgOps t ++ placedList t.photoList imgs ++ fgOps t }

/-- A template with a background photo and one rotated placement. -/
def tC3 : TemplateData :=
  { templateName := some "t", description := none, author := none,
    previewImageFilename := none, backgroundColor := none,
    height := 20, width := 20, backgroundPhoto := some "Templates/t/bg.png",
    foregroundPhoto := none,
    photoList := [{ x := 5, y := 6, width := 4, height := 3, rotation := 90 }] }

/-- One 8-by-2 source image. -/
def imgsC3 : List SrcImage := [{ id := 0, width := 8, height := 2 }]

/-- The canvas produced for `tC3` and `imgsC3`. -/
def mC3 : PILCanvas := canvasForm tC3 imgsC3 [0, 0, 0, 0]

/-- A template with both a background and a foreground photo. -/
def tC4 : TemplateData :=
  { templateName := some "t", description := none, author := none,
    previewImageFilename := none, backgroundColor := none,
    height := 20, width := 20, backgroundPhoto := some "b.png",
    foregroundPhoto := some "f.png", photoList := [] }

/-- The canvas produced for `tC4` with no input images. -/
def mC4 : PILCanvas := canvasForm tC4 [] [0, 0, 0, 0]

/-- A template with a parseable background color. -/
def tC5a : TemplateData :=
  { templateName := some "t", description := none, author := none,
    previewImageFilename := none, backgroundColor := some "#ff0000",
    height := 30, width := 40, backgroundPhoto := none, foregroundPhoto := none,
    photoList := [] }

/-- A template with no background color. -/
def tC5b : TemplateData :=
  { templateName := some "t", description := none, author := none,
    previewImageFilename := none, backgroundColor := none,
    height := 30, width := 40, backgroundPhoto := none, foregroundPhoto := none,
    photoList := [] }

/-- The canvas produced for `tC5a`. -/
def mC5a : PILCanvas := canvasForm tC5a [] [255, 0, 0]

/-- The canvas produced for `tC5b`. -/
def mC5b : PILCanvas := canvasForm tC5b [] [0, 0, 0, 0]

/-- A template with one placement. -/
def tC8 : TemplateData :=
  { templateName := some "t", description := none, author := none,
    previewImageFilename := none, backgroundColor := none,
    height := 20, width := 20, backgroundPhoto := none, foregroundPhoto := none,
    photoList := [{ x := 0, y := 0, width := 4, height := 3, rotation := 0 }] }

/-- Two source images for the single placement of `tC8`. -/
def imgsC8 : List SrcImage :=
  [{ id := 0, width := 8, height := 2 }, { id := 1, width := 9, height := 9 }]

/-- A template for the determinism witness. -/
def tC9 : TemplateData :=
  { templateName := some "t", description := none, author := none,
    previewImageFilename := none, backgroundColor := some "102030",
    height := 20, width := 20, backgroundPhoto := some "b.png",
    foregroundPhoto := some "f.png",
    photoList := [{ x := 1, y := 2, width := 4, height := 3, rotation := 45 }] }

/-- An image list for the determinism witness. -/
def imgsC9 : List SrcImage := [{ id := 7, width := 6, height := 5 }]

/-- The same image list written as a separate definition. -/
def imgsC9copy : List SrcImage := [{ id := 7, width := 6, height := 5 }]

/-- A schema-accepted document whose `backgroundColor` attribute is not a
well-formed hex color. -/
def docC10 : TemplateDoc :=
  { name := some "t", description := none, author := none, previewImage := none,
    canvas := { backgroundColor := some "zzz", height := "20", width := "20",
                backgroundPhoto := none, foregroundPhoto := none, photos := [] } }

/-- A construction environment carrying `docC10`. -/
def inpC10 : TemplateInput :=
  { dirname := "Templates/t", filename := "template.xml", load := XmlLoad.ok docC10,
    schemaLoad := true, schemaValid := true }

/-- The layout produced for `docC10`: construction succeeds and keeps the
malformed color string verbatim. -/
def dC10 : TemplateData :=
  { templateName := some "t", description := none, author := none,
    previewImageFilename := none, backgroundColor := some "zzz",
    height := 20, width := 20, backgroundPhoto := none, foregroundPhoto := none,
    photoList := [] }

theorem getMaxImageSize_eq_foldl (t : TemplateData) :
    getMaxImageSize t = t.photoList.foldl maxStep (0, 0) := rfl

/-- Characterization of the `maxStep` fold: either no element beats the
accumulator and it is returned unchanged, or the fold returns the
`(width, height)` of the first element of maximal width among those
beating the accumulator. -/
theorem maxFold_char (l : List PlacementSpec) (acc : Int × Int) :
    (l.foldl maxStep acc = acc ∧ ∀ q ∈ l, q.width ≤ acc.1) ∨
    (∃ l₁ p l₂, l = l₁ ++ p :: l₂ ∧
      l.foldl maxStep acc = (p.width, p.height) ∧
      acc.1 < p.width ∧ (∀ q ∈ l₁, q.width < p.width) ∧
      ∀ q ∈ l, q.width ≤ p.width) := by
  induction l generalizing acc with
  | nil => exact Or.inl ⟨rfl, by simp⟩
  | cons a l ih =>
    by_cases h : a.width > acc.1
    · have hstep : (a :: l).foldl maxStep acc = l.foldl maxStep (a.width, a.height) := by
        simp [maxStep, h]
      rcases ih (a.width, a.height) with ⟨heq, hall⟩ |
        ⟨l₁, p, l₂, hsplit, heq, hlt, hbefore, hallle⟩
      · refine Or.inr ⟨[], a, l, by simp, ?_, h, by simp, ?_⟩
        · rw [hstep, heq]
        · intro q hq
          rcases List.mem_cons.mp hq with rfl | hq
          · exact le_refl _
          · exact hall q hq
      · refine Or.inr ⟨a :: l₁, p, l₂, by rw [hsplit, List.cons_append], ?_, ?_, ?_, ?_⟩
        · rw [hstep, heq]
        · exact lt_trans h hlt
        · intro q hq
          rcases List.mem_cons.mp hq with rfl | hq
          · exact hlt
          · exact hbefore q hq
        · intro q hq
          rcases List.mem_cons.mp hq with rfl | hq
          · exact le_of_lt hlt
          · exact hallle q hq
    · have hstep : (a :: l).foldl maxStep acc = l.foldl maxStep acc := by
        simp [maxStep, h]
      rcases ih acc with ⟨heq, hall⟩ | ⟨l₁, p, l₂, hsplit, heq, hlt, hbefore, hallle⟩
      · refine Or.inl ⟨by rw [hstep, heq], ?_⟩
        intro q hq
        rcases List.mem_cons.mp hq with rfl | hq
        · exact le_of_not_lt h
        · exact hall q hq
      · refine Or.inr ⟨a :: l₁, p, l₂, by rw [hsplit, List.cons_append], by rw [hstep, heq], hlt, ?_, ?_⟩
        · intro q hq
          rcases List.mem_cons.mp hq with rfl | hq
          · exact lt_of_le_of_lt (le_of_not_lt h) hlt
          · exact hbefore q hq
        · intro q hq
          rcases List.mem_cons.mp hq with rfl | hq
          · exact le_of_lt (lt_of_le_of_lt (le_of_not_lt h) hlt)
          · exact hallle q hq

/-- Claim C1: for a `TemplateReader` with a non-empty placement list,
`getMaxImageSize` returns the `(width, height)` pair of the placement
with the largest width, comparing only width, and on width ties the
earliest such placement in document order wins: the list splits as
`l₁ ++ p :: l₂` where every placement before `p` has strictly smaller
width and no placement anywhere has larger width. -/
theorem getMaxImageSize_max_width (t : TemplateData) (hne : t.photoList ≠ [])
    (hpos : ∀ p ∈ t.photoList, 0 < p.width) :
    ∃ l₁ p l₂, t.photoList = l₁ ++ p :: l₂ ∧
      getMaxImageSize t = (p.width, p.height) ∧
      (∀ q ∈ l₁, q.width < p.width) ∧
      ∀ q ∈ t.photoList, q.width ≤ p.width := by
  rcases maxFold_char t.photoList (0, 0) with ⟨_, hall⟩ |
    ⟨l₁, p, l₂, hsplit, heq, _, hbefore, hallle⟩
  · cases hl : t.photoList with
    | nil => exact absurd hl hne
    | cons a rest =>
      have ha : a ∈ t.photoList := by rw [hl]; exact List.mem_cons_self a rest
      exact absurd (hall a ha) (not_le.mpr (hpos a ha))
  · exact ⟨l₁, p, l₂, hsplit, by rw [getMaxImageSize_eq_foldl, heq], hbefore, hallle⟩

theorem getMaxImageSize_max_width_witness :
    (∃ l₁ p l₂, tC1.photoList = l₁ ++ p :: l₂ ∧
      getMaxImageSize tC1 = (p.width, p.height) ∧
      (∀ q ∈ l₁, q.width < p.width) ∧
      ∀ q ∈ tC1.photoList, q.width ≤ p.width) ∧
    getMaxImageSize tC1 = (300, 150) :=
  ⟨getMaxImageSize_max_width tC1 (by decide) (by decide), by decide⟩

/-- Claim C2 counterexample: on a validated document with a non-integer
geometry attribute, `TemplateReader` construction raises `ValueError`
(uncaught by the `except OSError` / `except XMLSyntaxError` clauses),
not `TemplateError`. -/
theorem templateReader_valueError_escapes :
    TemplateReader.init inpC2 = Except.error PyExc.valueError ∧
    PyExc.valueError ≠ PyExc.templateError := by
  refine ⟨?_, by decide⟩
  show parseFile inpC2.dirname docC2 = Except.error PyExc.valueError
  rfl

/-- Claim C2 (amended): construction fails with `TemplateError` when the
description file is missing or unreadable, when it is syntactically
invalid XML, when the schema file cannot be read, and when schema
validation fails; but a structural parse failure after successful
validation — a non-integer canvas `height` attribute — raises
`ValueError`, not `TemplateError`.  In every failure case no
`TemplateData` is produced. -/
theorem templateReader_error_kinds (inp : TemplateInput) :
    (inp.load = XmlLoad.ioError →
      TemplateReader.init inp = Except.error PyExc.templateError) ∧
    (inp.load = XmlLoad.syntaxError →
      TemplateReader.init inp = Except.error PyExc.templateError) ∧
    (∀ doc, inp.load = XmlLoad.ok doc → inp.schemaLoad = false →
      TemplateReader.init inp = Except.error PyExc.templateError) ∧
    (∀ doc, inp.load = XmlLoad.ok doc → inp.schemaLoad = true →
      inp.schemaValid = false →
      TemplateReader.init inp = Except.error PyExc.templateError) ∧
    (∀ doc, inp.load = XmlLoad.ok doc → inp.schemaLoad = true →
      inp.schemaValid = true →
      pyInt doc.canvas.height = Except.error PyExc.valueError →
      TemplateReader.init inp = Except.error PyExc.valueError) := by
  refine ⟨?_, ?_, ?_, ?_, ?_⟩
  · intro h
    simp [TemplateReader.init, h]
  · intro h
    simp [TemplateReader.init, h]
  · intro doc hdoc hs
    simp [TemplateReader.init, hdoc, hs]
  · intro doc hdoc hs hv
    simp [TemplateReader.init, hdoc, hs, hv]
  · intro doc hdoc hs hv hbad
    simp [TemplateReader.init, hdoc, hs, hv, parseFile, hbad, bind, Except.bind]

theorem templateReader_error_kinds_witness :
    TemplateReader.init inpC2io = Except.error PyExc.templateError ∧
    TemplateReader.init inpC2syn = Except.error PyExc.templateError ∧
    TemplateReader.init inpC2noschema = Except.error PyExc.templateError ∧
    TemplateReader.init inpC2inval = Except.error PyExc.templateError ∧
    TemplateReader.init inpC2 = Except.error PyExc.valueError :=
  ⟨(templateReader_error_kinds inpC2io).1 rfl,
   (templateReader_error_kinds inpC2syn).2.1 rfl,
   (templateReader_error_kinds inpC2noschema).2.2.1 docC2 rfl rfl,
   (templateReader_error_kinds inpC2inval).2.2.2.1 docC2 rfl rfl rfl,
   (templateReader_error_kinds inpC2).2.2.2.2 docC2 rfl rfl rfl rfl⟩

theorem digitsAux_isSome (dv : Char → Option Nat) (base : Nat) (cs : List Char)
    (h : ∀ c ∈ cs, (dv c).isSome) (a : Nat) :
    ∃ n, digitsAux dv base a cs = some n := by
  induction cs generalizing a with
  | nil => exact ⟨a, rfl⟩
  | cons c cs ih =>
    have hc := h c (List.mem_cons_self c cs)
    rcases Option.isSome_iff_exists.mp hc with ⟨d, hd⟩
    rcases ih (fun x hx => h x (List.mem_cons_of_mem c hx)) (base * a + d) with ⟨n, hn⟩
    exact ⟨n, by simp [digitsAux, hd, hn]⟩

theorem digitsNat_isSome (dv : Char → Option Nat) (base : Nat) (cs : List Char)
    (hne : cs ≠ []) (h : ∀ c ∈ cs, (dv c).isSome) :
    ∃ n, digitsNat dv base cs = some n := by
  cases cs with
  | nil => exact absurd rfl hne
  | cons c cs =>
    rcases digitsAux_isSome dv base (c :: cs) h 0 with ⟨n, hn⟩
    exact ⟨n, hn⟩

/-- A non-empty all-hex-digit string parses under `int(s, 16)`. -/
theorem pyIntHex_ok (s : String) (hne : s.data ≠ [])
    (hhex : ∀ c ∈ s.data, (hexDigitVal c).isSome) :
    ∃ n : Int, pyIntHex s = Except.ok n := by
  cases hd : s.data with
  | nil => exact absurd hd hne
  | cons c cs =>
    have hc : (hexDigitVal c).isSome := by
      refine hhex c ?_
      rw [hd]; exact List.mem_cons_self c cs
    have hcp : c ≠ '+' := by
      intro h; rw [h] at hc; simp [hexDigitVal] at hc
    have hcm : c ≠ '-' := by
      intro h; rw [h] at hc; simp [hexDigitVal] at hc
    rcases digitsNat_isSome hexDigitVal 16 (c :: cs) (by simp)
        (by rw [← hd]; exact hhex) with ⟨n, hn⟩
    have hsd : signedDigits hexDigitVal 16 (c :: cs) = some ((n : Nat) : Int) := by
      rw [signedDigits]
      simp [hcp, hcm, hn]
    refine ⟨((n : Nat) : Int), ?_⟩
    unfold pyIntHex
    rw [hd, hsd]

/-- Characters of a Python slice come from the original string. -/
theorem pySlice_mem (v : String) (a b : Nat) (c : Char) (hc : c ∈ (pySlice v a b).data) :
    c ∈ v.data := by
  have h1 : ((v.data.drop a).take (b - a)).Sublist (v.data.drop a) := List.take_sublist _ _
  have h2 : (v.data.drop a).Sublist v.data := List.drop_sublist _ _
  exact (h1.trans h2).mem hc

theorem pySlice_data (v : String) (a b : Nat) :
    (pySlice v a b).data = (v.data.drop a).take (b - a) := rfl

theorem pySlice_length (v : String) (a b : Nat) :
    (pySlice v a b).length = min (b - a) (v.length - a) := by
  show ((v.data.drop a).take (b - a)).length = min (b - a) (v.data.length - a)
  rw [List.length_take, List.length_drop]

/-- A slice of an all-hex-digit string with `a < b` and `a` in range
parses under `int(s, 16)`. -/
theorem pyIntHex_slice_ok (v : String) (hhex : ∀ c ∈ v.data, (hexDigitVal c).isSome)
    (a b : Nat) (hab : a < b) (ha : a < v.length) :
    ∃ n : Int, pyIntHex (pySlice v a b) = Except.ok n := by
  refine pyIntHex_ok _ ?_ (fun c hc => hhex c (pySlice_mem v a b c hc))
  have hlen : (pySlice v a b).length = min (b - a) (v.length - a) := pySlice_length v a b
  intro hnil
  have : (pySlice v a b).length = 0 := by
    show (pySlice v a b).data.length = 0
    rw [hnil]; rfl
  rw [hlen] at this
  omega

/-- Success of `mapM` over `Except` when every element maps to a success,
with the length of the result. -/
theorem mapM_ok {α β : Type} (f : α → Except PyExc β) (l : List α)
    (h : ∀ a ∈ l, ∃ b, f a = Except.ok b) :
    ∃ res, l.mapM f = Except.ok res ∧ res.length = l.length := by
  induction l with
  | nil => exact ⟨[], rfl, rfl⟩
  | cons a l ih =>
    rcases h a (List.mem_cons_self a l) with ⟨b, hb⟩
    rcases ih (fun x hx => h x (List.mem_cons_of_mem a hx)) with ⟨res, hres, hlen⟩
    refine ⟨b :: res, ?_, by simp [hlen]⟩
    rw [List.mapM_cons, hb, hres]
    rfl

/-- Claim C6 counterexample: the string `"#"` has length 0 after
stripping the leading `'#'`, and 0 is divisible by 3, yet `hex_to_rgb`
raises `ValueError` (the chunk width `lv // 3` is 0 and
`range(0, 0, 0)` is illegal) instead of returning a triple. -/
theorem hex_to_rgb_empty_counterexample :
    (pyLstripHash "#").length % 3 = 0 ∧
    hex_to_rgb "#" = Except.error PyExc.valueError := ⟨rfl, rfl⟩

/-- Claim C6 (amended): for every hex color string whose length after
removing leading `'#'` characters is divisible by 3 **and non-zero**,
`hex_to_rgb` splits it into three components of equal length `lv // 3`,
parses each as an independent base-16 integer, and returns exactly that
three-element tuple (no alpha component). -/
theorem hex_to_rgb_divisible_triple (s v : String) (k : Nat)
    (hv : v = pyLstripHash s) (hk : k = v.length / 3)
    (hlen : v.length % 3 = 0) (hne : v.length ≠ 0)
    (hhex : ∀ c ∈ v.data, (hexDigitVal c).isSome) :
    (pySlice v 0 k).length = k ∧
    (pySlice v k (2 * k)).length = k ∧
    (pySlice v (2 * k) (3 * k)).length = k ∧
    ∃ r g b : Int,
      pyIntHex (pySlice v 0 k) = Except.ok r ∧
      pyIntHex (pySlice v k (2 * k)) = Except.ok g ∧
      pyIntHex (pySlice v (2 * k) (3 * k)) = Except.ok b ∧
      hex_to_rgb s = Except.ok [r, g, b] := by
  have h3k : v.length = 3 * k := by
    have := Nat.div_add_mod v.length 3
    omega
  have hkpos : 0 < k := by omega
  have hrange : pyRange 0 v.length k = Except.ok [0, k, 2 * k] := by
    unfold pyRange
    rw [if_neg (by omega)]
    congr 1
    have h1 : v.length - 0 + k - 1 = (k - 1) + k * 3 := by omega
    rw [h1, Nat.add_mul_div_left _ _ hkpos, Nat.div_eq_of_lt (by omega)]
    simp [List.range_succ]
  have hunf : hex_to_rgb s =
      (pyRange 0 v.length (v.length / 3) >>= fun idxs =>
        idxs.mapM (fun i => pyIntHex (pySlice v i (i + v.length / 3)))) := by
    rw [hv]; rfl
  rw [← hk, hrange] at hunf
  simp only [bind, Except.bind] at hunf
  obtain ⟨r, hr⟩ := pyIntHex_slice_ok v hhex 0 k hkpos (by omega)
  obtain ⟨g, hg⟩ := pyIntHex_slice_ok v hhex k (2 * k) (by omega) (by omega)
  obtain ⟨b, hb⟩ := pyIntHex_slice_ok v hhex (2 * k) (3 * k) (by omega) (by omega)
  have e0 : (0 : Nat) + k = k := by omega
  have e1 : k + k = 2 * k := by omega
  have e2 : 2 * k + k = 3 * k := by omega
  rw [List.mapM_cons, List.mapM_cons, List.mapM_cons, List.mapM_nil] at hunf
  rw [e0, e1, e2, hr, hg, hb] at hunf
  refine ⟨?_, ?_, ?_, r, g, b, hr, hg, hb, ?_⟩
  · rw [pySlice_length]; omega
  · rw [pySlice_length]; omega
  · rw [pySlice_length]; omega
  · rw [hunf]; rfl

theorem hex_to_rgb_divisible_triple_witness :
    ((pySlice "ffffff" 0 2).length = 2 ∧
     (pySlice "ffffff" 2 (2 * 2)).length = 2 ∧
     (pySlice "ffffff" (2 * 2) (3 * 2)).length = 2 ∧
     ∃ r g b : Int,
       pyIntHex (pySlice "ffffff" 0 2) = Except.ok r ∧
       pyIntHex (pySlice "ffffff" 2 (2 * 2)) = Except.ok g ∧
       pyIntHex (pySlice "ffffff" (2 * 2) (3 * 2)) = Except.ok b ∧
       hex_to_rgb "ffffff" = Except.ok [r, g, b]) ∧
    hex_to_rgb "ffffff" = Except.ok [255, 255, 255] ∧
    hex_to_rgb "#000000" = Except.ok [0, 0, 0] :=
  ⟨hex_to_rgb_divisible_triple "ffffff" "ffffff" 2 (by decide) (by decide)
      (by decide) (by decide) (by decide), rfl, rfl⟩

/-- Claim C7 counterexample: `"abcd"` has stripped length 4, which is not
divisible by 3, yet `hex_to_rgb` does not raise: it silently returns the
four-component tuple `(10, 11, 12, 13)`. -/
theorem hex_to_rgb_four_components_counterexample :
    (pyLstripHash "abcd").length % 3 ≠ 0 ∧
    hex_to_rgb "abcd" = Except.ok [10, 11, 12, 13] := ⟨by decide, rfl⟩

/-- Claim C7 (amended): for a hex-digit string whose stripped length is
not divisible by 3, `hex_to_rgb` raises `ValueError` only when that
length is 1 or 2 (where the chunk width `lv // 3` degenerates to 0); for
every length at least 4 it silently returns a malformed tuple with at
least four components instead of raising. -/
theorem hex_to_rgb_malformed_length (s v : String)
    (hv : v = pyLstripHash s)
    (hhex : ∀ c ∈ v.data, (hexDigitVal c).isSome) :
    (v.length = 1 ∨ v.length = 2 → hex_to_rgb s = Except.error PyExc.valueError) ∧
    (4 ≤ v.length → v.length % 3 ≠ 0 →
      ∃ l, hex_to_rgb s = Except.ok l ∧ 4 ≤ l.length) := by
  have hunf : hex_to_rgb s =
      (pyRange 0 v.length (v.length / 3) >>= fun idxs =>
        idxs.mapM (fun i => pyIntHex (pySlice v i (i + v.length / 3)))) := by
    rw [hv]; rfl
  constructor
  · intro h12
    have hdiv : v.length / 3 = 0 := by omega
    rw [hunf, hdiv]
    simp [pyRange, bind, Except.bind]
  · intro h4 hmod
    have hkpos : 0 < v.length / 3 := by omega
    have hnum : v.length - 0 + v.length / 3 - 1
        = (v.length % 3 - 1) + (v.length / 3) * 4 := by omega
    have hcnt : (v.length - 0 + v.length / 3 - 1) / (v.length / 3)
        = (v.length % 3 - 1) / (v.length / 3) + 4 := by
      rw [hnum, Nat.add_mul_div_left _ _ hkpos]
    have hrange2 : pyRange 0 v.length (v.length / 3)
        = Except.ok ((List.range ((v.length % 3 - 1) / (v.length / 3) + 4)).map
            (fun j => 0 + j * (v.length / 3))) := by
      unfold pyRange
      rw [if_neg (by omega), hcnt]
    have helems : ∀ i ∈ (List.range ((v.length % 3 - 1) / (v.length / 3) + 4)).map
        (fun j => 0 + j * (v.length / 3)),
        ∃ n, pyIntHex (pySlice v i (i + v.length / 3)) = Except.ok n := by
      intro i hi
      rcases List.mem_map.mp hi with ⟨j, hj, rfl⟩
      have hj' : j < (v.length % 3 - 1) / (v.length / 3) + 4 := List.mem_range.mp hj
      have hik : 0 + j * (v.length / 3) < v.length := by
        have h1 : j ≤ (v.length % 3 - 1) / (v.length / 3) + 3 := by omega
        have h2 : j * (v.length / 3)
            ≤ ((v.length % 3 - 1) / (v.length / 3) + 3) * (v.length / 3) :=
          Nat.mul_le_mul_right _ h1
        have h3 : ((v.length % 3 - 1) / (v.length / 3)) * (v.length / 3)
            ≤ v.length % 3 - 1 := Nat.div_mul_le_self _ _
        have h4' : ((v.length % 3 - 1) / (v.length / 3) + 3) * (v.length / 3)
            = ((v.length % 3 - 1) / (v.length / 3)) * (v.length / 3)
              + 3 * (v.length / 3) := by ring
        omega
      exact pyIntHex_slice_ok v hhex _ _ (by omega) hik
    obtain ⟨res, hres, hreslen⟩ := mapM_ok _ _ helems
    refine ⟨res, ?_, ?_⟩
    · rw [hunf, hrange2]
      simp only [bind, Except.bind]
      exact hres
    · rw [hreslen, List.length_map, List.length_range]
      exact Nat.le_add_left 4 _

theorem hex_to_rgb_malformed_length_witness :
    hex_to_rgb "a" = Except.error PyExc.valueError ∧
    ∃ l, hex_to_rgb "abcd" = Except.ok l ∧ 4 ≤ l.length :=
  ⟨(hex_to_rgb_malformed_length "a" "a" (by decide) (by decide)).1 (Or.inl (by decide)),
   (hex_to_rgb_malformed_length "abcd" "abcd" (by decide) (by decide)).2
     (by decide) (by decide)⟩

/-- Geometry of `thumbnail`: with positive bounds the result fits inside
the bounds and both dimensions are the original ones scaled by a common
ratio `p / q ≤ 1` (rounded down). -/
theorem thumbnailSize_bounds (W H x y : Nat) (hx : 0 < x) (hy : 0 < y) :
    (thumbnailSize (W, H) (x, y)).1 ≤ x ∧ (thumbnailSize (W, H) (x, y)).2 ≤ y ∧
    ∃ p q, 0 < q ∧ p ≤ q ∧ (thumbnailSize (W, H) (x, y)).1 = W * p / q ∧
      (thumbnailSize (W, H) (x, y)).2 = H * p / q := by
  unfold thumbnailSize
  by_cases h1 : W ≤ x ∧ H ≤ y
  · rw [if_pos h1]
    exact ⟨h1.1, h1.2, 1, 1, Nat.one_pos, le_refl 1, by simp, by simp⟩
  · rw [if_neg h1]
    by_cases h2 : x * H ≤ y * W
    · rw [if_pos h2]
      have hW : 0 < W := by
        by_contra hc
        have hW0 : W = 0 := by omega
        subst hW0
        have hH0 : H = 0 := by
          have hz : x * H ≤ 0 := by simpa using h2
          rcases Nat.mul_eq_zero.mp (Nat.le_zero.mp hz) with h | h
          · omega
          · exact h
        exact h1 ⟨Nat.zero_le x, by omega⟩
      have hxW : x ≤ W := by
        by_contra hc
        push_neg at hc
        have hWx : W ≤ x := le_of_lt hc
        have hHy : ¬ H ≤ y := fun hh => h1 ⟨hWx, hh⟩
        have h6 : x * H ≤ x * y := by
          calc x * H ≤ y * W := h2
          _ ≤ y * x := Nat.mul_le_mul_left y hWx
          _ = x * y := Nat.mul_comm y x
        exact hHy (Nat.le_of_mul_le_mul_left h6 hx)
      have hfit2 : H * x / W ≤ y := by
        have hle : H * x ≤ W * y := by
          rw [Nat.mul_comm H x, Nat.mul_comm W y]
          exact h2
        exact Nat.div_le_of_le_mul hle
      exact ⟨le_refl x, hfit2, x, W, hW, hxW,
        (Nat.mul_div_cancel_left x hW).symm, rfl⟩
    · rw [if_neg h2]
      push_neg at h2
      have hH : 0 < H := by
        by_contra hc
        have hH0 : H = 0 := by omega
        subst hH0
        simp at h2
      have hyH : y ≤ H := by
        by_contra hc
        push_neg at hc
        have hHy : H ≤ y := le_of_lt hc
        have hxW : ¬ W ≤ x := fun hw => h1 ⟨hw, hHy⟩
        push_neg at hxW
        have h6 : y * W < x * y := lt_of_lt_of_le h2 (Nat.mul_le_mul_left x hHy)
        have h7 : y * W < y * x := by rw [Nat.mul_comm x y] at h6; exact h6
        have := Nat.lt_of_mul_lt_mul_left h7
        omega
      have hfit1 : W * y / H ≤ x := by
        have hle : W * y ≤ H * x := by
          rw [Nat.mul_comm W y, Nat.mul_comm H x]
          exact le_of_lt h2
        exact Nat.div_le_of_le_mul hle
      exact ⟨hfit1, le_refl y, y, H, hH, hyH, rfl,
        (Nat.mul_div_cancel_left y hH).symm⟩

theorem placeLoop_ok (specs : List PlacementSpec) (imgs : List SrcImage)
    (m : PILCanvas) (h : specs.length ≤ imgs.length) :
    placeLoop specs imgs m =
      Except.ok { m with ops := m.ops ++ placedList specs imgs } := by
  induction specs generalizing imgs m with
  | nil => simp [placeLoop, placedList]
  | cons spec specs ih =>
    cases imgs with
    | nil => simp at h
    | cons img imgs =>
      have h' : specs.length ≤ imgs.length := Nat.le_of_succ_le_succ h
      simp only [placeLoop]
      rw [ih _ _ h']
      simp [PILCanvas.paste, placedList, mkPlacedOp, mkPlacedImg, List.append_assoc]

theorem placeLoop_err (specs : List PlacementSpec) (imgs : List SrcImage)
    (m : PILCanvas) (h : imgs.length < specs.length) :
    placeLoop specs imgs m = Except.error PyExc.indexError := by
  induction specs generalizing imgs m with
  | nil => simp at h
  | cons spec specs ih =>
    cases imgs with
    | nil => rfl
    | cons img imgs =>
      have h' : imgs.length < specs.length := Nat.lt_of_succ_lt_succ h
      simp only [placeLoop]
      exact ih _ _ h'

theorem processImages_unfold (t : TemplateData) (imgs : List SrcImage) :
    processImages t imgs =
      (colorResult t >>= fun col =>
        (placeLoop t.photoList imgs
          (match t.backgroundPhoto with
           | some p =>
             PILCanvas.paste
               { mode := "RGB", size := (t.width, t.height), color := col, ops := [] }
               (Img.file p) (0, 0) none
           | none =>
             { mode := "RGB", size := (t.width, t.height), color := col, ops := [] }))
          >>= fun m2 =>
        Except.ok
          (match t.foregroundPhoto with
           | some p => PILCanvas.paste m2 (Img.file p) (0, 0) (some (Img.file p))
           | none => m2)) := by
  unfold processImages colorResult
  cases t.backgroundColor <;> rfl

theorem processImages_err_color (t : TemplateData) (imgs : List SrcImage)
    (e : PyExc) (hcol : colorResult t = Except.error e) :
    processImages t imgs = Except.error e := by
  rw [processImages_unfold, hcol]
  rfl

theorem processImages_char (t : TemplateData) (imgs : List SrcImage)
    (col : List Int) (hcol : colorResult t = Except.ok col)
    (hlen : t.photoList.length ≤ imgs.length) :
    processImages t imgs = Except.ok (canvasForm t imgs col) := by
  rw [processImages_unfold, hcol]
  simp only [bind, Except.bind]
  rw [placeLoop_ok _ _ _ hlen]
  unfold canvasForm bgOps fgOps
  cases t.backgroundPhoto <;> cases t.foregroundPhoto <;>
    simp [PILCanvas.paste, List.append_assoc]

theorem processImages_err_len (t : TemplateData) (imgs : List SrcImage)
    (col : List Int) (hcol : colorResult t = Except.ok col)
    (hlen : imgs.length < t.photoList.length) :
    processImages t imgs = Except.error PyExc.indexError := by
  rw [processImages_unfold, hcol]
  simp only [bind, Except.bind]
  rw [placeLoop_err _ _ _ hlen]

/-- Inversion: a successful `processImages` determines the canvas form. -/
theorem processImages_ok_iff (t : TemplateData) (imgs : List SrcImage)
    (m : PILCanvas) :
    processImages t imgs = Except.ok m ↔
      ∃ col, colorResult t = Except.ok col ∧
        t.photoList.length ≤ imgs.length ∧ m = canvasForm t imgs col := by
  constructor
  · intro h
    cases hcol : colorResult t with
    | error e =>
      rw [processImages_err_color t imgs e hcol] at h
      cases h
    | ok col =>
      rcases Nat.lt_or_ge imgs.length t.photoList.length with hlt | hge
      · rw [processImages_err_len t imgs col hcol hlt] at h
        cases h
      · rw [processImages_char t imgs col hcol hge] at h
        injection h with h
        exact ⟨col, rfl, hge, h.symm⟩
  · rintro ⟨col, hcol, hlen, rfl⟩
    exact processImages_char t imgs col hcol hlen

theorem placedList_length (specs : List PlacementSpec) (imgs : List SrcImage) :
    (placedList specs imgs).length = min specs.length imgs.length := by
  simp [placedList]

theorem placedList_getElem (specs : List PlacementSpec) (imgs : List SrcImage)
    (i : Nat) (hi : i < specs.length) (hlen : specs.length ≤ imgs.length) :
    ∃ hij : i < imgs.length,
      (placedList specs imgs)[i]? =
        some (mkPlacedOp (specs.get ⟨i, hi⟩) (imgs.get ⟨i, hij⟩)) := by
  have hij : i < imgs.length := lt_of_lt_of_le hi hlen
  refine ⟨hij, ?_⟩
  unfold placedList
  rw [List.getElem?_map]
  have hz : (specs.zip imgs)[i]? = some (specs.get ⟨i, hi⟩, imgs.get ⟨i, hij⟩) := by
    rw [List.getElem?_zip_eq_some]
    constructor
    · simp [List.getElem?_eq_getElem hi]
    · simp [List.getElem?_eq_getElem hij]
  rw [hz]
  rfl

/-- Claim C3: for every placement, paired by index with the input image
list in document order, the recorded paste (sitting right after the
optional background paste, at offset `(bgOps t).length + i`) is built in
this strict order: the source image is converted to RGBA and shrunk by
`thumbnail` into the placement's `(width, height)` bounding box
(dimensions never exceed the bounds and are the source dimensions scaled
by one common ratio `p / q ≤ 1`), then — only when the rotation is
non-zero — rotated counter-clockwise by `rotation` degrees with the
bounding box expanded (`expand = true`), never in the other order; the
result is pasted at `(x, y)` with the image itself as the paste mask. -/
theorem processImages_placement_pipeline (t : TemplateData) (imgs : List SrcImage)
    (m : PILCanvas) (hok : processImages t imgs = Except.ok m)
    (i : Nat) (hi : i < t.photoList.length) (hij : i < imgs.length)
    (spec : PlacementSpec) (hspec : t.photoList.get ⟨i, hi⟩ = spec)
    (img : SrcImage) (himg : imgs.get ⟨i, hij⟩ = img)
    (hw : 0 < spec.width) (hh : 0 < spec.height) :
    m.ops[(bgOps t).length + i]? =
      some { img := mkPlacedImg spec img, pos := (spec.x, spec.y),
             mask := some (mkPlacedImg spec img) } ∧
    mkPlacedImg spec img =
      (if spec.rotation ≠ 0 then
        Img.rot (Img.thumb (Img.convert (Img.src img) "RGBA")
          spec.width spec.height Resample.antialias)
          spec.rotation Resample.bilinear true
      else
        Img.thumb (Img.convert (Img.src img) "RGBA")
          spec.width spec.height Resample.antialias) ∧
    (Img.thumb (Img.convert (Img.src img) "RGBA")
        spec.width spec.height Resample.antialias).size =
      some (thumbnailSize (img.width, img.height)
        (spec.width.toNat, spec.height.toNat)) ∧
    (thumbnailSize (img.width, img.height)
        (spec.width.toNat, spec.height.toNat)).1 ≤ spec.width.toNat ∧
    (thumbnailSize (img.width, img.height)
        (spec.width.toNat, spec.height.toNat)).2 ≤ spec.height.toNat ∧
    ∃ p q, 0 < q ∧ p ≤ q ∧
      (thumbnailSize (img.width, img.height)
          (spec.width.toNat, spec.height.toNat)).1 = img.width * p / q ∧
      (thumbnailSize (img.width, img.height)
          (spec.width.toNat, spec.height.toNat)).2 = img.height * p / q := by
  subst hspec himg
  obtain ⟨col, hcol, hlen, rfl⟩ := (processImages_ok_iff t imgs m).mp hok
  obtain ⟨hij2, hpl⟩ := placedList_getElem t.photoList imgs i hi hlen
  obtain ⟨b1, b2, hpq⟩ := thumbnailSize_bounds (imgs.get ⟨i, hij⟩).width
    (imgs.get ⟨i, hij⟩).height (t.photoList.get ⟨i, hi⟩).width.toNat
    (t.photoList.get ⟨i, hi⟩).height.toNat (by omega) (by omega)
  refine ⟨?_, rfl, rfl, b1, b2, hpq⟩
  show (canvasForm t imgs col).ops[(bgOps t).length + i]? = _
  unfold canvasForm
  have hilen : i < (placedList t.photoList imgs).length := by
    rw [placedList_length]; omega
  rw [List.getElem?_append_left (by rw [List.length_append]; omega),
    List.getElem?_append_right (by omega)]
  have hidx : (bgOps t).length + i - (bgOps t).length = i := by omega
  rw [hidx, hpl]
  rfl

theorem processImages_placement_pipeline_witness :
    mC3.ops[(bgOps tC3).length + 0]? =
      some { img := mkPlacedImg { x := 5, y := 6, width := 4, height := 3, rotation := 90 }
                      { id := 0, width := 8, height := 2 },
             pos := (5, 6),
             mask := some (mkPlacedImg
                      { x := 5, y := 6, width := 4, height := 3, rotation := 90 }
                      { id := 0, width := 8, height := 2 }) } ∧
    mkPlacedImg { x := 5, y := 6, width := 4, height := 3, rotation := 90 }
        { id := 0, width := 8, height := 2 } =
      (if (90 : Int) ≠ 0 then
        Img.rot (Img.thumb (Img.convert (Img.src { id := 0, width := 8, height := 2 }) "RGBA")
          4 3 Resample.antialias) 90 Resample.bilinear true
      else
        Img.thumb (Img.convert (Img.src { id := 0, width := 8, height := 2 }) "RGBA")
          4 3 Resample.antialias) ∧
    (Img.thumb (Img.convert (Img.src { id := 0, width := 8, height := 2 }) "RGBA")
        4 3 Resample.antialias).size =
      some (thumbnailSize (8, 2) ((4 : Int).toNat, (3 : Int).toNat)) ∧
    (thumbnailSize (8, 2) ((4 : Int).toNat, (3 : Int).toNat)).1 ≤ (4 : Int).toNat ∧
    (thumbnailSize (8, 2) ((4 : Int).toNat, (3 : Int).toNat)).2 ≤ (3 : Int).toNat ∧
    ∃ p q, 0 < q ∧ p ≤ q ∧
      (thumbnailSize (8, 2) ((4 : Int).toNat, (3 : Int).toNat)).1 = 8 * p / q ∧
      (thumbnailSize (8, 2) ((4 : Int).toNat, (3 : Int).toNat)).2 = 2 * p / q :=
  processImages_placement_pipeline tC3 imgsC3 mC3 rfl 0 (by decide) (by decide)
    { x := 5, y := 6, width := 4, height := 3, rotation := 90 } rfl
    { id := 0, width := 8, height := 2 } rfl (by decide) (by decide)

/-- Claim C4: when a background image path is set it is pasted first, at
the origin, with no mask (opaque overwrite); when a foreground image
path is set it is pasted last, at the origin, with its own alpha channel
as the mask. -/
theorem processImages_background_foreground_masks (t : TemplateData)
    (imgs : List SrcImage) (m : PILCanvas)
    (hok : processImages t imgs = Except.ok m) :
    (∀ p, t.backgroundPhoto = some p →
      m.ops[0]? = some (PasteOp.mk (Img.file p) ((0 : Int), (0 : Int)) none)) ∧
    (∀ p, t.foregroundPhoto = some p →
      m.ops.getLast? =
        some (PasteOp.mk (Img.file p) ((0 : Int), (0 : Int)) (some (Img.file p)))) := by
  obtain ⟨col, hcol, hlen, rfl⟩ := (processImages_ok_iff t imgs m).mp hok
  constructor
  · intro p hp
    show (canvasForm t imgs col).ops[0]? = _
    unfold canvasForm bgOps
    rw [hp]
    simp
  · intro p hp
    show (canvasForm t imgs col).ops.getLast? = _
    unfold canvasForm fgOps
    rw [hp]
    exact List.getLast?_concat _

theorem processImages_background_foreground_masks_witness :
    mC4.ops[0]? = some (PasteOp.mk (Img.file "b.png") ((0 : Int), (0 : Int)) none) ∧
    mC4.ops.getLast? =
      some (PasteOp.mk (Img.file "f.png") ((0 : Int), (0 : Int))
        (some (Img.file "f.png"))) :=
  ⟨(processImages_background_foreground_masks tC4 [] mC4 rfl).1 "b.png" rfl,
   (processImages_background_foreground_masks tC4 [] mC4 rfl).2 "f.png" rfl⟩

/-- Claim C5: `processImages` allocates a canvas of exactly
`(canvasWidth, canvasHeight)` in mode RGB; when `backgroundColor` is
present the canvas is filled with its `hex_to_rgb` parse, and when it is
absent with the zero color `(0, 0, 0, 0)`. -/
theorem processImages_canvas (t : TemplateData) (imgs : List SrcImage)
    (m : PILCanvas) (hok : processImages t imgs = Except.ok m) :
    m.size = (t.width, t.height) ∧ m.mode = "RGB" ∧
    (∀ c, t.backgroundColor = some c → hex_to_rgb c = Except.ok m.color) ∧
    (t.backgroundColor = none → m.color = [0, 0, 0, 0]) := by
  obtain ⟨col, hcol, hlen, rfl⟩ := (processImages_ok_iff t imgs m).mp hok
  refine ⟨rfl, rfl, ?_, ?_⟩
  · intro c hc
    unfold colorResult at hcol
    rw [hc] at hcol
    exact hcol
  · intro hc
    unfold colorResult at hcol
    rw [hc] at hcol
    injection hcol with hcol
    exact hcol.symm

theorem processImages_canvas_witness :
    (mC5a.size = (tC5a.width, tC5a.height) ∧
     hex_to_rgb "#ff0000" = Except.ok mC5a.color) ∧
    (mC5b.size = (tC5b.width, tC5b.height) ∧ mC5b.color = [0, 0, 0, 0]) :=
  ⟨⟨(processImages_canvas tC5a [] mC5a rfl).1,
    (processImages_canvas tC5a [] mC5a rfl).2.2.1 "#ff0000" rfl⟩,
   ⟨(processImages_canvas tC5b [] mC5b rfl).1,
    (processImages_canvas tC5b [] mC5b rfl).2.2.2 rfl⟩⟩

theorem zip_take_self {α β : Type} (l₁ : List α) (l₂ : List β) :
    l₁.zip (l₂.take l₁.length) = l₁.zip l₂ := by
  induction l₁ generalizing l₂ with
  | nil => rfl
  | cons a l ih =>
    cases l₂ with
    | nil => rfl
    | cons b bs =>
      simp only [List.length_cons, List.take_succ_cons, List.zip_cons_cons]
      rw [ih]

theorem placedList_take (specs : List PlacementSpec) (imgs : List SrcImage) :
    placedList specs (imgs.take specs.length) = placedList specs imgs := by
  unfold placedList
  rw [zip_take_self]

/-- Claim C8: when the image list is at least as long as the placement
list, only the first `len(placements)` images are used — the output is
identical to the one for the truncated list; when it is shorter, the
call never produces a canvas and (once the canvas color is computed)
fails with `IndexError`. -/
theorem processImages_image_count (t : TemplateData) (imgs : List SrcImage) :
    (t.photoList.length ≤ imgs.length →
      processImages t imgs = processImages t (imgs.take t.photoList.length)) ∧
    (imgs.length < t.photoList.length →
      (∀ m, processImages t imgs ≠ Except.ok m) ∧
      ∀ col, colorResult t = Except.ok col →
        processImages t imgs = Except.error PyExc.indexError) := by
  constructor
  · intro hlen
    cases hcol : colorResult t with
    | error e =>
      rw [processImages_err_color t imgs e hcol,
        processImages_err_color t _ e hcol]
    | ok col =>
      have htlen : t.photoList.length ≤ (imgs.take t.photoList.length).length := by
        rw [List.length_take]
        omega
      rw [processImages_char t imgs col hcol hlen,
        processImages_char t _ col hcol htlen]
      unfold canvasForm
      rw [placedList_take]
  · intro hlen
    constructor
    · intro m hok
      obtain ⟨col, hcol, hlen2, _⟩ := (processImages_ok_iff t imgs m).mp hok
      omega
    · intro col hcol
      exact processImages_err_len t imgs col hcol hlen

theorem processImages_image_count_witness :
    (processImages tC8 imgsC8 = processImages tC8 (imgsC8.take tC8.photoList.length)) ∧
    (∀ m, processImages tC8 [] ≠ Except.ok m) ∧
    processImages tC8 [] = Except.error PyExc.indexError :=
  ⟨(processImages_image_count tC8 imgsC8).1 (by decide),
   ((processImages_image_count tC8 []).2 (by decide)).1,
   ((processImages_image_count tC8 []).2 (by decide)).2 [0, 0, 0, 0] rfl⟩

/-- Claim C9: `processImages` is deterministic — it is a pure function
of the layout and the image list, so two invocations on equal inputs
return equal (byte-identical) results; the embedding is pure because the
only in-place mutation in the code (`thumbnail`) acts on the fresh
per-call copy made by `convert("RGBA")`. -/
theorem processImages_deterministic (t : TemplateData) (imgs₁ imgs₂ : List SrcImage)
    (r₁ r₂ : Except PyExc PILCanvas) (h₁ : processImages t imgs₁ = r₁)
    (h₂ : processImages t imgs₂ = r₂) (heq : imgs₁ = imgs₂) : r₁ = r₂ := by
  subst heq h₁ h₂
  rfl

theorem processImages_deterministic_witness :
    processImages tC9 imgsC9 = processImages tC9 imgsC9copy :=
  processImages_deterministic tC9 imgsC9 imgsC9copy _ _ rfl rfl (by decide)

/-- Claim C10: a successful `TemplateReader` construction stores the
document's `backgroundColor` attribute as the raw, unvalidated string;
when that stored string is malformed the `ValueError` from `hex_to_rgb`
surfaces only later, failing every `processImages` call on the layout. -/
theorem backgroundColor_stored_raw (inp : TemplateInput) (doc : TemplateDoc)
    (d : TemplateData) (hload : inp.load = XmlLoad.ok doc)
    (hok : TemplateReader.init inp = Except.ok d) :
    d.backgroundColor = doc.canvas.backgroundColor ∧
    (∀ s, doc.canvas.backgroundColor = some s →
      hex_to_rgb s = Except.error PyExc.valueError →
      ∀ imgs, processImages d imgs = Except.error PyExc.valueError) := by
  have hparse : parseFile inp.dirname doc = Except.ok d := by
    unfold TemplateReader.init at hok
    rw [hload] at hok
    cases hsl : inp.schemaLoad with
    | false => rw [hsl] at hok; simp at hok
    | true =>
      rw [hsl] at hok
      cases hsv : inp.schemaValid with
      | false => rw [hsv] at hok; simp at hok
      | true =>
        rw [hsv] at hok
        simpa using hok
  have hbc : d.backgroundColor = doc.canvas.backgroundColor := by
    unfold parseFile at hparse
    cases hh : pyInt doc.canvas.height with
    | error e =>
      rw [hh] at hparse
      simp only [bind, Except.bind] at hparse
      cases hparse
    | ok hval =>
      rw [hh] at hparse
      cases hw : pyInt doc.canvas.width with
      | error e =>
        rw [hw] at hparse
        simp only [bind, Except.bind] at hparse
        cases hparse
      | ok wval =>
        rw [hw] at hparse
        cases hm : doc.canvas.photos.mapM parsePhotoSpec with
        | error e =>
          rw [hm] at hparse
          simp only [bind, Except.bind] at hparse
          cases hparse
        | ok pl =>
          rw [hm] at hparse
          simp only [bind, Except.bind, pure, Except.pure] at hparse
          injection hparse with hparse
          rw [← hparse]
  refine ⟨hbc, ?_⟩
  intro s hs hbad imgs
  apply processImages_err_color
  unfold colorResult
  rw [hbc, hs]
  exact hbad

theorem backgroundColor_stored_raw_witness :
    dC10.backgroundColor = docC10.canvas.backgroundColor ∧
    processImages dC10 [] = Except.error PyExc.valueError :=
  ⟨(backgroundColor_stored_raw inpC10 docC10 dC10 rfl rfl).1,
   (backgroundColor_stored_raw inpC10 docC10 dC10 rfl rfl).2 "zzz" rfl rfl []⟩
